import Mathlib

/-!
Verification of the kismet error-handling library (TypeScript/Deno).

The development shallowly embeds the runtime behaviour of the library's
source files:

* `result.ts` — the two-variant Result container
  `Result<T, E> = OkVariant<T> | ErrVariant<E>`.
* `matcher.ts` — `matchExhaustive`, dispatching on the error's `_tag`.
* `box.ts` — the synchronous fluent wrapper `Box`.
* `async_box.ts` — the asynchronous wrapper `AsyncBox` (promises are
  modelled by their settlement outcome).
* `error.ts` — `defineErrors`, `unknownError` and friends.

JavaScript runtime values that flow through the untyped parts of the code
(tagged error objects, spread construction, property lookup, string
coercion, `JSON.stringify`) are modelled by the inductive `JsValue`; a
JavaScript object is a field list with pairwise-distinct keys.
-/

/-- JsValue models the fragment of JavaScript runtime values the library
manipulates: `undefined`, `null`, booleans, (integer) numbers, strings,
`Error` instances (carrying their message) and plain objects, an object
being an ordered list of key/value fields. -/
inductive JsValue where
  | vUndefined
  | vNull
  | vBool (b : Bool)
  | vNum (n : Int)
  | vStr (s : String)
  | vError (message : String)
  | vObj (fields : List (String × JsValue))

/-- findProp? looks up the value stored under `key` in an object's field
list (the first binding wins; a well-formed JavaScript object has distinct
keys, so there is at most one). -/
def findProp? {A : Type} : List (String × A) → String → Option A
  | [], _ => none
  | (k, v) :: rest, key => if k = key then some v else findProp? rest key

/-- propAccess is JavaScript property access `v[key]`: on an object it
returns the stored field or `undefined` when the key is absent; on an
`Error` instance only the `message` property is modelled; on every other
value it yields `undefined`. -/
def propAccess (v : JsValue) (key : String) : JsValue :=
  match v with
  | .vObj fields =>
    match findProp? fields key with
    | some w => w
    | none => .vUndefined
  | .vError m => if key = "message" then .vStr m else .vUndefined
  | _ => .vUndefined

/-- setField is the JavaScript `[[Set]]` on an object's field list: an
existing key keeps its position and gets the new value, a fresh key is
appended at the end. -/
def setField : List (String × JsValue) → String → JsValue → List (String × JsValue)
  | [], k, v => [(k, v)]
  | (k0, v0) :: rest, k, v =>
    if k0 = k then (k0, v) :: rest else (k0, v0) :: setField rest k v

/-- spreadInto models the object-literal spread `\x7b ...base, ...props \x7d`
restricted to the shape the library uses: starting from the fields of
`base`, every field of `props` is `[[Set]]` in order. -/
def spreadInto (base props : List (String × JsValue)) : List (String × JsValue) :=
  props.foldl (fun acc kv => setField acc kv.1 kv.2) base

/-- jsToString is JavaScript string coercion `String(v)` (equivalently a
template-literal interpolation) on the modelled fragment: objects print as
"[object Object]", `Error` instances via `Error.prototype.toString`. -/
def jsToString (v : JsValue) : String :=
  match v with
  | .vUndefined => "undefined"
  | .vNull => "null"
  | .vBool b => cond b "true" "false"
  | .vNum n => toString n
  | .vStr s => s
  | .vError m => if m = "" then "Error" else "Error: " ++ m
  | .vObj _ => "[object Object]"

/-- jsonEscapeChar escapes one character of a JSON string literal the way
`JSON.stringify` does (quote, backslash and the common control characters;
other characters are emitted verbatim). -/
def jsonEscapeChar (c : Char) : String :=
  if c = '"' then "\\\""
  else if c = '\\' then "\\\\"
  else if c = '\n' then "\\n"
  else if c = '\t' then "\\t"
  else if c = '\r' then "\\r"
  else String.singleton c

/-- jsonQuote renders a string as a JSON string literal. -/
def jsonQuote (s : String) : String :=
  "\"" ++ String.join (s.data.map jsonEscapeChar) ++ "\""

mutual
/-- jsonStringify? is `JSON.stringify` on the modelled fragment: it returns
`none` exactly where the real function returns `undefined` (stringifying
`undefined` itself); object fields whose value stringifies to `undefined`
are skipped, and an `Error` instance has no enumerable own properties, so
it prints as an empty object. -/
def jsonStringify? : JsValue → Option String
  | .vUndefined => none
  | .vNull => some "null"
  | .vBool b => some (cond b "true" "false")
  | .vNum n => some (toString n)
  | .vStr s => some (jsonQuote s)
  | .vError _ => some "\x7b\x7d"
  | .vObj fields => some ("\x7b" ++ String.intercalate "," (jsonMembers fields) ++ "\x7d")

/-- jsonMembers renders the fields of an object for `jsonStringify?`,
skipping fields whose value stringifies to `undefined`. -/
def jsonMembers : List (String × JsValue) → List String
  | [] => []
  | (k, v) :: rest =>
    match jsonStringify? v with
    | some s => (jsonQuote k ++ ":" ++ s) :: jsonMembers rest
    | none => jsonMembers rest
end

/-- Result embeds result.ts `Result<T, E> = OkVariant<T> | ErrVariant<E>`,
the discriminated union of `\x7b _tag: "Ok", value: T \x7d` and
`\x7b _tag: "Err", error: E \x7d`, rendered as a two-constructor sum with
the variants' payload fields. -/
inductive Result (T E : Type) where
  | Ok (value : T)
  | Err (error : E)

/-- ok embeds result.ts `ok`, which builds the Ok variant
`\x7b _tag: "Ok", value \x7d`. -/
def ok {T E : Type} (value : T) : Result T E := .Ok value

/-- err embeds result.ts `err`, which builds the Err variant
`\x7b _tag: "Err", error \x7d`. -/
def err {T E : Type} (error : E) : Result T E := .Err error

/-- isOk embeds result.ts `isOk`, the type guard
`result._tag === "Ok"`. -/
def isOk {T E : Type} : Result T E → Bool
  | .Ok _ => true
  | .Err _ => false

/-- isErr embeds result.ts `isErr`, the type guard
`result._tag === "Err"`. -/
def isErr {T E : Type} : Result T E → Bool
  | .Ok _ => false
  | .Err _ => true

/-- JsResult is the Result container at the dynamic value domain, the type
of the `result` field of a runtime `Box`. -/
abbrev JsResult := Result JsValue JsValue

/-- MatchConfig is the runtime shape of matcher.ts's `MatchConfig` object:
a single string-keyed record of handler functions containing the `ok`
handler together with one handler per error tag. -/
abbrev MatchConfig (R : Type) := List (String × (JsValue → R))

/-- JsThrow models a JavaScript exception escaping a library function:
`errorMsg m` is `throw new Error(m)`, and `typeError` is the TypeError
produced by invoking a missing (`undefined`) property as a function. -/
inductive JsThrow where
  | errorMsg (message : String)
  | typeError

/-- matchExhaustive embeds matcher.ts `matchExhaustive`: on Ok it calls
`config.ok` with the value; on Err it looks the handler up under the
property key `String(error._tag)` and calls it with the error, and throws
`Error("Unhandled error tag: " + error._tag)` when no handler is found. -/
def matchExhaustive {R : Type} (result : JsResult) (config : MatchConfig R) :
    Except JsThrow R :=
  match result with
  | .Ok value =>
    match findProp? config "ok" with
    | some okHandler => .ok (okHandler value)
    | none => .error .typeError
  | .Err error =>
    match findProp? config (jsToString (propAccess error "_tag")) with
    | some handler => .ok (handler error)
    | none =>
      .error (.errorMsg ("Unhandled error tag: " ++ jsToString (propAccess error "_tag")))

/-- tagStrEq is the strict comparison `error._tag === tag` of box.ts
(`catchTag`, `orElseTag`): true exactly when the `_tag` property is the
string `tag` (a non-string `_tag` is never strictly equal to a string). -/
def tagStrEq (v : JsValue) (tag : String) : Bool :=
  match v with
  | .vStr s => s = tag
  | _ => false

/-- Box embeds the box.ts class `Box<T, E>` at the dynamic value domain: an
immutable wrapper owning exactly one Result. -/
structure Box where
  result : JsResult

/-- Box.ok embeds `Box.ok`: wrap a success value. -/
def Box.ok (value : JsValue) : Box := ⟨.Ok value⟩

/-- Box.err embeds `Box.err`: wrap an error value. -/
def Box.err (error : JsValue) : Box := ⟨.Err error⟩

/-- Box.fail embeds `Box.fail(tag, props)`, which returns
`Box.err(\x7b _tag: tag, ...props \x7d)`; the optional `props` argument is
modelled by its field list (absent `props` is the empty list). -/
def Box.fail (tag : String) (props : List (String × JsValue)) : Box :=
  Box.err (.vObj (spreadInto [("_tag", .vStr tag)] props))

/-- Box.map embeds `Box.map`: `new Box(isOk(this.result) ?
ok(fn(this.result.value)) : this.result)`. -/
def Box.map (b : Box) (fn : JsValue → JsValue) : Box :=
  ⟨match b.result with
   | .Ok value => .Ok (fn value)
   | .Err error => .Err error⟩

/-- Box.mapErr embeds `Box.mapErr`: `new Box(isErr(this.result) ?
err(fn(this.result.error)) : this.result)`. -/
def Box.mapErr (b : Box) (fn : JsValue → JsValue) : Box :=
  ⟨match b.result with
   | .Ok value => .Ok value
   | .Err error => .Err (fn error)⟩

/-- Box.flatMap embeds `Box.flatMap`: on Ok it returns the wrapper produced
by `fn`, on Err it executes `return this`, propagating the receiver. -/
def Box.flatMap (b : Box) (fn : JsValue → Box) : Box :=
  match b.result with
  | .Ok value => fn value
  | .Err _ => b

/-- Box.catchTag embeds `Box.catchTag`: on an Err whose `error._tag === tag`
it returns the handler's wrapper; otherwise it executes `return this`. -/
def Box.catchTag (b : Box) (tag : String) (handler : JsValue → Box) : Box :=
  match b.result with
  | .Err error =>
    if tagStrEq (propAccess error "_tag") tag then handler error else b
  | .Ok _ => b

/-- Box.catchAll embeds `Box.catchAll`: on Err it returns the handler's
wrapper; on Ok it executes `return this`. -/
def Box.catchAll (b : Box) (handler : JsValue → Box) : Box :=
  match b.result with
  | .Err error => handler error
  | .Ok _ => b

/-- Box.orElseTag embeds `Box.orElseTag`: on an Err whose
`error._tag === tag` it returns `Box.ok(fallback)`; otherwise it executes
`return this`. -/
def Box.orElseTag (b : Box) (tag : String) (fallback : JsValue) : Box :=
  match b.result with
  | .Err error =>
    if tagStrEq (propAccess error "_tag") tag then Box.ok fallback else b
  | .Ok _ => b

/-- Box.unwrapOr embeds `Box.unwrapOr`: the value on Ok, the default on
Err; it never throws. -/
def Box.unwrapOr (b : Box) (defaultValue : JsValue) : JsValue :=
  match b.result with
  | .Ok value => value
  | .Err _ => defaultValue

/-- Box.unwrap embeds `Box.unwrap`: the value on Ok; on Err it throws
`new Error("Unwrap called on Err: " + JSON.stringify(this.result.error))`
(the template literal renders a `JSON.stringify` result of `undefined` as
the string "undefined"). -/
def Box.unwrap (b : Box) : Except JsThrow JsValue :=
  match b.result with
  | .Ok value => .ok value
  | .Err error =>
    .error (.errorMsg ("Unwrap called on Err: " ++ (jsonStringify? error).getD "undefined"))

/-- Box.toResult embeds `Box.toResult`: plain extraction of the underlying
Result. -/
def Box.toResult (b : Box) : JsResult := b.result

/-- PromiseOutcome is the settlement of a JavaScript promise (equivalently
of an async computation): it either resolves with a value or rejects with
a reason. -/
inductive PromiseOutcome where
  | resolved (value : JsValue)
  | rejected (reason : JsValue)

/-- AsyncBox embeds the async_box.ts class `AsyncBox<T, E>`: it owns one
promise of a Result, modelled by the Result that promise settles with (the
internal promise built by the constructors below never rejects). -/
structure AsyncBox where
  promise : JsResult

/-- AsyncBox.ok embeds `AsyncBox.ok`:
`new AsyncBox(Promise.resolve(ok(value)))`. -/
def AsyncBox.ok (value : JsValue) : AsyncBox := ⟨.Ok value⟩

/-- AsyncBox.err embeds `AsyncBox.err`:
`new AsyncBox(Promise.resolve(err(error)))`. -/
def AsyncBox.err (error : JsValue) : AsyncBox := ⟨.Err error⟩

/-- AsyncBox.fail embeds `AsyncBox.fail(tag, props)`, which returns
`AsyncBox.err(\x7b _tag: tag, ...props \x7d)`. -/
def AsyncBox.fail (tag : String) (props : List (String × JsValue)) : AsyncBox :=
  AsyncBox.err (.vObj (spreadInto [("_tag", .vStr tag)] props))

/-- AsyncBox.fromPromise embeds `AsyncBox.fromPromise`:
`new AsyncBox(promise.then(ok).catch((e) => err(onError(e))))` — a
resolution becomes Ok of the value, a rejection becomes Err of `onError`
applied to the reason. -/
def AsyncBox.fromPromise (promise : PromiseOutcome) (onError : JsValue → JsValue) :
    AsyncBox :=
  match promise with
  | .resolved value => ⟨.Ok value⟩
  | .rejected reason => ⟨.Err (onError reason)⟩

/-- unknownError embeds error.ts `unknownError`: it builds the reserved
UnknownError variant carrying the raised value as `cause` and, as
`message`, the Error's own message when the cause is an `Error` instance
and `String(cause)` otherwise. -/
def unknownError (cause : JsValue) : JsValue :=
  .vObj [("_tag", .vStr "UnknownError"), ("cause", cause),
         ("message", .vStr (match cause with
           | .vError m => m
           | c => jsToString c))]

/-- WrapConfig is the `\x7b try, catch \x7d` configuration object accepted
by `AsyncBox.wrap`; the `try` thunk is modelled by the settlement of the
promise it produces (the fields are named `tryFn`/`catchFn` because `try`
is reserved in Lean). -/
structure WrapConfig where
  tryFn : PromiseOutcome
  catchFn : JsValue → JsValue

/-- WrapArg is the argument of the overloaded `AsyncBox.wrap`: either a
bare async function (modelled by its settlement) or a WrapConfig. -/
inductive WrapArg where
  | fnArg (compute : PromiseOutcome)
  | configArg (config : WrapConfig)

/-- AsyncBox.wrap embeds `AsyncBox.wrap`: the function form delegates to
`fromPromise(fn(), unknownError)` and the config form to
`fromPromise(config.try(), config.catch)`. -/
def AsyncBox.wrap : WrapArg → AsyncBox
  | .fnArg p => AsyncBox.fromPromise p unknownError
  | .configArg cfg => AsyncBox.fromPromise cfg.tryFn cfg.catchFn

/-- defineErrors embeds the runtime content of error.ts `defineErrors`: for
each tag of the definitions record (the declared payload shapes are erased
at runtime and never inspected by the constructors) it produces the
constructor `(props?) => (\x7b _tag: tag, ...props \x7d)`; the result is
the record mapping each tag to its constructor. -/
def defineErrors (tags : List String) :
    List (String × (List (String × JsValue) → JsValue)) :=
  tags.map (fun tag =>
    (tag, fun props => JsValue.vObj (spreadInto [("_tag", JsValue.vStr tag)] props)))

/-- Store models the JavaScript heap of Box instances, for the claims about
instance identity and mutation: the Result owned by each allocated wrapper,
addressed by position. -/
abbrev Store := List JsResult

/-- BoxRef is the identity (reference) of a Box instance in a Store. -/
abbrev BoxRef := Nat

/-- derefBox reads `this.result` of the wrapper that `r` references (with
an arbitrary default for dangling references, which the modelled programs
never produce). -/
def derefBox (σ : Store) (r : BoxRef) : JsResult :=
  σ.getD r (.Err .vUndefined)

/-- allocBox is `new Box(res)` under reference semantics: a fresh instance
is appended to the heap and its reference returned. -/
def allocBox (σ : Store) (res : JsResult) : Store × BoxRef :=
  (σ ++ [res], σ.length)

/-- StoreExtends σ σ2 says the heap σ2 arose from σ by allocations only, so
every wrapper existing in σ is unmutated in σ2. -/
def StoreExtends (σ σ2 : Store) : Prop := ∃ τ, σ2 = σ ++ τ

/-- Box.mapS is box.ts `Box.map` under explicit reference semantics: both
paths execute `new Box(...)` (on Err the fresh wrapper shares the
receiver's Result). -/
def Box.mapS (σ : Store) (self : BoxRef) (fn : JsValue → JsValue) :
    Store × BoxRef :=
  match derefBox σ self with
  | .Ok value => allocBox σ (.Ok (fn value))
  | .Err error => allocBox σ (.Err error)

/-- Box.mapErrS is box.ts `Box.mapErr` under explicit reference semantics:
both paths execute `new Box(...)`. -/
def Box.mapErrS (σ : Store) (self : BoxRef) (fn : JsValue → JsValue) :
    Store × BoxRef :=
  match derefBox σ self with
  | .Ok value => allocBox σ (.Ok value)
  | .Err error => allocBox σ (.Err (fn error))

/-- Box.flatMapS is box.ts `Box.flatMap` under explicit reference
semantics: on Ok it returns the reference produced by the callback (which
may itself allocate), on Err it executes `return this` — the receiver's own
reference, with no allocation. -/
def Box.flatMapS (σ : Store) (self : BoxRef)
    (fn : Store → JsValue → Store × BoxRef) : Store × BoxRef :=
  match derefBox σ self with
  | .Ok value => fn σ value
  | .Err _ => (σ, self)

/-- Box.catchTagS is box.ts `Box.catchTag` under explicit reference
semantics: on a tag match it returns the handler's reference, otherwise it
executes `return this`. -/
def Box.catchTagS (σ : Store) (self : BoxRef) (tag : String)
    (handler : Store → JsValue → Store × BoxRef) : Store × BoxRef :=
  match derefBox σ self with
  | .Err error =>
    if tagStrEq (propAccess error "_tag") tag then handler σ error else (σ, self)
  | .Ok _ => (σ, self)

/-- Box.catchAllS is box.ts `Box.catchAll` under explicit reference
semantics: on Err it returns the handler's reference, on Ok it executes
`return this`. -/
def Box.catchAllS (σ : Store) (self : BoxRef)
    (handler : Store → JsValue → Store × BoxRef) : Store × BoxRef :=
  match derefBox σ self with
  | .Err error => handler σ error
  | .Ok _ => (σ, self)

/-- Box.orElseTagS is box.ts `Box.orElseTag` under explicit reference
semantics: on a tag match it allocates `Box.ok(fallback)`, otherwise it
executes `return this`. -/
def Box.orElseTagS (σ : Store) (self : BoxRef) (tag : String)
    (fallback : JsValue) : Store × BoxRef :=
  match derefBox σ self with
  | .Err error =>
    if tagStrEq (propAccess error "_tag") tag then allocBox σ (.Ok fallback)
    else (σ, self)
  | .Ok _ => (σ, self)

theorem storeExtends_refl (σ : Store) : StoreExtends σ σ := ⟨[], by simp⟩

theorem storeExtends_alloc (σ : Store) (res : JsResult) :
    StoreExtends σ (allocBox σ res).1 := ⟨[res], rfl⟩

theorem derefBox_preserve {σ σ2 : Store} {r : BoxRef}
    (hext : StoreExtends σ σ2) (hr : r < σ.length) :
    derefBox σ2 r = derefBox σ r := by
  obtain ⟨τ, rfl⟩ := hext
  simp [derefBox, List.getD, List.getElem?_append, hr]

theorem derefBox_alloc (σ : Store) (res : JsResult) :
    derefBox (allocBox σ res).1 (allocBox σ res).2 = res := by
  simp [derefBox, allocBox, List.getD, List.getElem?_append]

theorem findProp?_setField_self (acc : List (String × JsValue)) (k : String)
    (v : JsValue) : findProp? (setField acc k v) k = some v := by
  induction acc with
  | nil => simp [setField, findProp?]
  | cons hd tl ih =>
    obtain ⟨k0, v0⟩ := hd
    by_cases h : k0 = k
    · subst h
      simp [setField, findProp?]
    · simp [setField, findProp?, h, ih]

theorem findProp?_setField_ne (acc : List (String × JsValue)) {k1 k : String}
    (v : JsValue) (h : k1 ≠ k) :
    findProp? (setField acc k1 v) k = findProp? acc k := by
  induction acc with
  | nil => simp [setField, findProp?, h]
  | cons hd tl ih =>
    obtain ⟨k0, v0⟩ := hd
    by_cases h0 : k0 = k1
    · subst h0
      simp [setField, findProp?, h]
    · simp [setField, findProp?, h0, ih]

theorem findProp?_spreadInto_notin (props : List (String × JsValue))
    {k : String} (acc : List (String × JsValue))
    (h : k ∉ props.map Prod.fst) :
    findProp? (spreadInto acc props) k = findProp? acc k := by
  induction props generalizing acc with
  | nil => simp [spreadInto]
  | cons hd tl ih =>
    obtain ⟨k0, v0⟩ := hd
    simp only [List.map_cons, List.mem_cons, not_or] at h
    have step : spreadInto acc ((k0, v0) :: tl) = spreadInto (setField acc k0 v0) tl := by
      simp [spreadInto]
    rw [step, ih (setField acc k0 v0) h.2,
      findProp?_setField_ne acc v0 (fun he => h.1 he.symm)]

theorem findProp?_spreadInto_mem (props : List (String × JsValue))
    {k : String} {w : JsValue} (acc : List (String × JsValue))
    (hnd : (props.map Prod.fst).Nodup) (hmem : (k, w) ∈ props) :
    findProp? (spreadInto acc props) k = some w := by
  induction props generalizing acc with
  | nil => simp at hmem
  | cons hd tl ih =>
    obtain ⟨k0, v0⟩ := hd
    simp only [List.map_cons, List.nodup_cons] at hnd
    have step : spreadInto acc ((k0, v0) :: tl) = spreadInto (setField acc k0 v0) tl := by
      simp [spreadInto]
    rcases List.mem_cons.mp hmem with heq | htl
    · obtain ⟨rfl, rfl⟩ := Prod.mk.injEq .. ▸ heq
      have hnot : k ∉ tl.map Prod.fst := hnd.1
      rw [step, findProp?_spreadInto_notin tl (setField acc k w) hnot,
        findProp?_setField_self]
    · exact step ▸ ih (setField acc k0 v0) hnd.2 htl

theorem setField_notin (acc : List (String × JsValue)) {k : String}
    (v : JsValue) (h : k ∉ acc.map Prod.fst) :
    setField acc k v = acc ++ [(k, v)] := by
  induction acc with
  | nil => simp [setField]
  | cons hd tl ih =>
    obtain ⟨k0, v0⟩ := hd
    simp only [List.map_cons, List.mem_cons, not_or] at h
    have hne : ¬k0 = k := fun he => h.1 he.symm
    simp [setField, hne, ih h.2]

theorem spreadInto_disjoint (props acc : List (String × JsValue))
    (hnd : (props.map Prod.fst).Nodup)
    (hdisj : ∀ k ∈ props.map Prod.fst, k ∉ acc.map Prod.fst) :
    spreadInto acc props = acc ++ props := by
  induction props generalizing acc with
  | nil => simp [spreadInto]
  | cons hd tl ih =>
    obtain ⟨k0, v0⟩ := hd
    simp only [List.map_cons, List.nodup_cons] at hnd
    have step : spreadInto acc ((k0, v0) :: tl) = spreadInto (setField acc k0 v0) tl := by
      simp [spreadInto]
    have hk0 : k0 ∉ acc.map Prod.fst := hdisj k0 (by simp)
    rw [step, setField_notin acc v0 hk0, ih (acc ++ [(k0, v0)]) hnd.2]
    · simp
    · intro k hk
      simp only [List.map_append, List.mem_append, not_or]
      refine ⟨hdisj k (by simp [hk]), ?_⟩
      simp only [List.map_cons, List.map_nil, List.mem_singleton]
      intro he
      exact hnd.1 (he ▸ hk)

theorem mapS_extends (σ : Store) (self : BoxRef) (f : JsValue → JsValue) :
    StoreExtends σ (Box.mapS σ self f).1 := by
  unfold Box.mapS
  cases derefBox σ self <;> exact storeExtends_alloc ..

theorem mapS_content (σ : Store) (self : BoxRef) (f : JsValue → JsValue) :
    derefBox (Box.mapS σ self f).1 (Box.mapS σ self f).2 =
      (Box.map ⟨derefBox σ self⟩ f).result := by
  unfold Box.mapS Box.map
  cases derefBox σ self <;> simp [derefBox_alloc]

theorem mapS_fresh (σ : Store) (self : BoxRef) (f : JsValue → JsValue) :
    (Box.mapS σ self f).2 = σ.length := by
  unfold Box.mapS
  cases derefBox σ self <;> rfl

theorem mapErrS_extends (σ : Store) (self : BoxRef) (f : JsValue → JsValue) :
    StoreExtends σ (Box.mapErrS σ self f).1 := by
  unfold Box.mapErrS
  cases derefBox σ self <;> exact storeExtends_alloc ..

theorem mapErrS_content (σ : Store) (self : BoxRef) (f : JsValue → JsValue) :
    derefBox (Box.mapErrS σ self f).1 (Box.mapErrS σ self f).2 =
      (Box.mapErr ⟨derefBox σ self⟩ f).result := by
  unfold Box.mapErrS Box.mapErr
  cases derefBox σ self <;> simp [derefBox_alloc]

theorem mapErrS_fresh (σ : Store) (self : BoxRef) (f : JsValue → JsValue) :
    (Box.mapErrS σ self f).2 = σ.length := by
  unfold Box.mapErrS
  cases derefBox σ self <;> rfl

theorem flatMapS_extends (σ : Store) (self : BoxRef)
    (fn : Store → JsValue → Store × BoxRef)
    (hext : ∀ τ v, StoreExtends τ (fn τ v).1) :
    StoreExtends σ (Box.flatMapS σ self fn).1 := by
  unfold Box.flatMapS
  cases derefBox σ self with
  | Ok value => exact hext σ value
  | Err error => exact storeExtends_refl σ

theorem flatMapS_content (σ : Store) (self : BoxRef)
    (fn : Store → JsValue → Store × BoxRef) (g : JsValue → JsResult)
    (hdet : ∀ τ v, derefBox (fn τ v).1 (fn τ v).2 = g v) :
    derefBox (Box.flatMapS σ self fn).1 (Box.flatMapS σ self fn).2 =
      (Box.flatMap ⟨derefBox σ self⟩ (fun v => ⟨g v⟩)).result := by
  unfold Box.flatMapS Box.flatMap
  cases h : derefBox σ self with
  | Ok value => exact hdet σ value
  | Err error => simp [h]

theorem catchTagS_extends (σ : Store) (self : BoxRef) (tag : String)
    (fn : Store → JsValue → Store × BoxRef)
    (hext : ∀ τ v, StoreExtends τ (fn τ v).1) :
    StoreExtends σ (Box.catchTagS σ self tag fn).1 := by
  unfold Box.catchTagS
  cases derefBox σ self with
  | Ok value => exact storeExtends_refl σ
  | Err error =>
    by_cases h : tagStrEq (propAccess error "_tag") tag <;> simp only [h]
    · simpa using hext σ error
    · simpa using storeExtends_refl σ

theorem catchTagS_content (σ : Store) (self : BoxRef) (tag : String)
    (fn : Store → JsValue → Store × BoxRef) (g : JsValue → JsResult)
    (hdet : ∀ τ v, derefBox (fn τ v).1 (fn τ v).2 = g v) :
    derefBox (Box.catchTagS σ self tag fn).1 (Box.catchTagS σ self tag fn).2 =
      (Box.catchTag ⟨derefBox σ self⟩ tag (fun v => ⟨g v⟩)).result := by
  unfold Box.catchTagS Box.catchTag
  cases h : derefBox σ self with
  | Ok value => simp [h]
  | Err error =>
    by_cases ht : tagStrEq (propAccess error "_tag") tag <;> simp only [ht]
    · simpa using hdet σ error
    · simp [h]

theorem catchAllS_extends (σ : Store) (self : BoxRef)
    (fn : Store → JsValue → Store × BoxRef)
    (hext : ∀ τ v, StoreExtends τ (fn τ v).1) :
    StoreExtends σ (Box.catchAllS σ self fn).1 := by
  unfold Box.catchAllS
  cases derefBox σ self with
  | Ok value => exact storeExtends_refl σ
  | Err error => exact hext σ error

theorem catchAllS_content (σ : Store) (self : BoxRef)
    (fn : Store → JsValue → Store × BoxRef) (g : JsValue → JsResult)
    (hdet : ∀ τ v, derefBox (fn τ v).1 (fn τ v).2 = g v) :
    derefBox (Box.catchAllS σ self fn).1 (Box.catchAllS σ self fn).2 =
      (Box.catchAll ⟨derefBox σ self⟩ (fun v => ⟨g v⟩)).result := by
  unfold Box.catchAllS Box.catchAll
  cases h : derefBox σ self with
  | Ok value => simp [h]
  | Err error => exact hdet σ error

theorem orElseTagS_extends (σ : Store) (self : BoxRef) (tag : String)
    (fallback : JsValue) :
    StoreExtends σ (Box.orElseTagS σ self tag fallback).1 := by
  unfold Box.orElseTagS
  cases derefBox σ self with
  | Ok value => exact storeExtends_refl σ
  | Err error =>
    by_cases h : tagStrEq (propAccess error "_tag") tag <;> simp only [h]
    · simpa using storeExtends_alloc ..
    · simpa using storeExtends_refl σ

theorem orElseTagS_content (σ : Store) (self : BoxRef) (tag : String)
    (fallback : JsValue) :
    derefBox (Box.orElseTagS σ self tag fallback).1 (Box.orElseTagS σ self tag fallback).2 =
      (Box.orElseTag ⟨derefBox σ self⟩ tag fallback).result := by
  unfold Box.orElseTagS Box.orElseTag
  cases h : derefBox σ self with
  | Ok value => simp [h]
  | Err error =>
    by_cases ht : tagStrEq (propAccess error "_tag") tag <;> simp only [ht]
    · simpa [Box.ok] using derefBox_alloc ..
    · simp [h]

/-- C1: for every Result and every complete handler table — one containing
the `ok` entry and, when the Result is a Failure with (string) tag `t`, an
entry under `t` — `matchExhaustive` returns a value without throwing: on a
Success with value `v` it returns exactly the `ok` handler applied to `v`,
and on a Failure it returns exactly the handler registered under the
failure's tag applied to the error itself (tag plus payload). It invokes no
other handler: any table registering the same handler under the dispatched
key produces the same output. -/
theorem C1_matchExhaustive_totality_dispatch {R : Type}
    (config config2 : MatchConfig R) :
    (∀ (v : JsValue) (okHandler : JsValue → R),
      findProp? config "ok" = some okHandler →
      matchExhaustive (Result.Ok v) config = Except.ok (okHandler v) ∧
      (findProp? config2 "ok" = some okHandler →
        matchExhaustive (Result.Ok v) config2 = Except.ok (okHandler v))) ∧
    (∀ (e : JsValue) (t : String) (handler : JsValue → R),
      propAccess e "_tag" = JsValue.vStr t →
      findProp? config t = some handler →
      matchExhaustive (Result.Err e) config = Except.ok (handler e) ∧
      (findProp? config2 t = some handler →
        matchExhaustive (Result.Err e) config2 = Except.ok (handler e))) := by
  constructor
  · intro v okHandler hok
    refine ⟨?_, fun hok2 => ?_⟩
    · simp [matchExhaustive, hok]
    · simp [matchExhaustive, hok2]
  · intro e t handler htag hfind
    refine ⟨?_, fun hfind2 => ?_⟩
    · simp [matchExhaustive, htag, jsToString, hfind]
    · simp [matchExhaustive, htag, jsToString, hfind2]

/-- C1 witness: a Success dispatches to the `ok` handler and a Failure
tagged "NotFound" dispatches to the "NotFound" handler, which receives the
error with its payload. -/
theorem C1_matchExhaustive_totality_dispatch_witness :
    matchExhaustive (Result.Ok (JsValue.vNum 42))
      [("ok", fun v => jsToString v),
       ("NotFound", fun e => jsToString (propAccess e "id"))] =
      Except.ok "42" ∧
    matchExhaustive
      (Result.Err (JsValue.vObj [("_tag", JsValue.vStr "NotFound"), ("id", JsValue.vStr "123")]))
      [("ok", fun v => jsToString v),
       ("NotFound", fun e => jsToString (propAccess e "id"))] =
      Except.ok "123" := by
  have h := C1_matchExhaustive_totality_dispatch (R := String)
    [("ok", fun v => jsToString v),
     ("NotFound", fun e => jsToString (propAccess e "id"))]
    [("ok", fun v => jsToString v),
     ("NotFound", fun e => jsToString (propAccess e "id"))]
  exact ⟨(h.1 (JsValue.vNum 42) _ rfl).1,
    (h.2 (JsValue.vObj [("_tag", JsValue.vStr "NotFound"), ("id", JsValue.vStr "123")])
      "NotFound" _ rfl rfl).1⟩

/-- C2: on a Failure whose (string) tag has no handler registered in the
table, `matchExhaustive` throws an Error whose message is exactly
"Unhandled error tag: " followed by the tag name — so for tag "Z" the
message contains the literal substring "Unhandled error tag: Z". -/
theorem C2_matchExhaustive_unhandled_tag {R : Type} (config : MatchConfig R)
    (e : JsValue) (t : String)
    (htag : propAccess e "_tag" = JsValue.vStr t)
    (hmiss : findProp? config t = none) :
    matchExhaustive (Result.Err e) config =
      Except.error (JsThrow.errorMsg ("Unhandled error tag: " ++ t)) := by
  simp [matchExhaustive, htag, jsToString, hmiss]

/-- C2 witness: a Failure tagged "Z" against a table registering only `ok`
and "A" throws with the message "Unhandled error tag: Z". -/
theorem C2_matchExhaustive_unhandled_tag_witness :
    matchExhaustive (Result.Err (JsValue.vObj [("_tag", JsValue.vStr "Z")]))
      [("ok", fun _ => "S"), ("A", fun _ => "A")] =
      Except.error (JsThrow.errorMsg "Unhandled error tag: Z") :=
  C2_matchExhaustive_unhandled_tag
    [("ok", fun _ => "S"), ("A", fun _ => "A")]
    (JsValue.vObj [("_tag", JsValue.vStr "Z")]) "Z" rfl rfl

/-- C9: a Failure whose error's `_tag` is the literal string "ok" is looked
up under the property key "ok", so `matchExhaustive` invokes the success
handler, passing it the error object instead of a success value, and the
unhandled-tag error is never raised for such a Failure. -/
theorem C9_matchExhaustive_ok_tag_collision {R : Type} (config : MatchConfig R)
    (e : JsValue) (okHandler : JsValue → R)
    (htag : propAccess e "_tag" = JsValue.vStr "ok")
    (hok : findProp? config "ok" = some okHandler) :
    matchExhaustive (Result.Err e) config = Except.ok (okHandler e) := by
  simp [matchExhaustive, htag, jsToString, hok]

/-- C9 witness: a Failure whose `_tag` is "ok" is handed to the `ok`
handler, which observes the error object's own payload field. -/
theorem C9_matchExhaustive_ok_tag_collision_witness :
    matchExhaustive
      (Result.Err (JsValue.vObj [("_tag", JsValue.vStr "ok"), ("x", JsValue.vNum 1)]))
      [("ok", fun v => jsToString (propAccess v "x"))] =
      Except.ok "1" :=
  C9_matchExhaustive_ok_tag_collision
    [("ok", fun v => jsToString (propAccess v "x"))]
    (JsValue.vObj [("_tag", JsValue.vStr "ok"), ("x", JsValue.vNum 1)])
    (fun v => jsToString (propAccess v "x")) rfl rfl

/-- C3: for every wrapper holding Success(v) and every function `f`,
`Box.map f` produces a wrapper holding Success(f v) — the output is exactly
one application of `f` to `v`; for every wrapper holding a Failure, the
resulting wrapper holds the same Failure with the same error, and since the
right-hand side does not mention `f` at all (the equation holds for every
`f` with the same error-side output), `f` is never invoked. -/
theorem C3_box_map_short_circuit (v e : JsValue) (f : JsValue → JsValue) :
    Box.map (Box.ok v) f = Box.ok (f v) ∧
    Box.map (Box.err e) f = Box.err e :=
  ⟨rfl, rfl⟩

/-- C4: for every wrapper holding Success(v), `Box.flatMap f` returns the
wrapper produced by `f v` itself; for every wrapper holding a Failure, the
original Failure propagates unchanged for every `f` (so `f` is never
invoked); consequently, chaining after a step that failed with tag
"Step1Failed" leaves a wrapper whose Result is still exactly that first
failure, so any subsequent match is determined solely by it. -/
theorem C4_box_flatMap_short_circuit (v e : JsValue) (f : JsValue → Box) :
    Box.flatMap (Box.ok v) f = f v ∧
    Box.flatMap (Box.err e) f = Box.err e ∧
    (Box.flatMap (Box.fail "Step1Failed" []) f).result =
      Result.Err (JsValue.vObj [("_tag", JsValue.vStr "Step1Failed")]) :=
  ⟨rfl, rfl, rfl⟩

/-- C5: for every wrapper holding a Failure whose error's `_tag` strictly
equals the given tag, `Box.catchTag` returns the handler's wrapper applied
to that error; for a Failure with a non-matching tag or for a Success, the
wrapper's contents pass through unchanged for every handler (so the handler
is never invoked). -/
theorem C5_box_catchTag_dispatch (e v : JsValue) (tag : String)
    (handler : JsValue → Box) :
    (tagStrEq (propAccess e "_tag") tag = true →
      Box.catchTag (Box.err e) tag handler = handler e) ∧
    (tagStrEq (propAccess e "_tag") tag = false →
      Box.catchTag (Box.err e) tag handler = Box.err e) ∧
    Box.catchTag (Box.ok v) tag handler = Box.ok v := by
  refine ⟨fun h => ?_, fun h => ?_, rfl⟩ <;> simp [Box.catchTag, Box.err, h]

/-- C5 witness: `failure(\x7b _tag: "NotFound", id: "123" \x7d)` run
through `catchTag("NotFound", _ => success(0))` then `unwrapOr(-1)` yields
0. -/
theorem C5_box_catchTag_dispatch_witness :
    Box.unwrapOr
      (Box.catchTag
        (Box.err (JsValue.vObj [("_tag", JsValue.vStr "NotFound"), ("id", JsValue.vStr "123")]))
        "NotFound" (fun _ => Box.ok (JsValue.vNum 0)))
      (JsValue.vNum (-1)) = JsValue.vNum 0 := by
  have h := (C5_box_catchTag_dispatch
    (JsValue.vObj [("_tag", JsValue.vStr "NotFound"), ("id", JsValue.vStr "123")])
    JsValue.vNull "NotFound" (fun _ => Box.ok (JsValue.vNum 0))).1 rfl
  rw [h]
  rfl

/-- C6: `Box.unwrap` on a wrapper holding Success(v) returns v; invoked on
a wrapper holding a Failure it throws an Error whose message is
"Unwrap called on Err: " followed by the JSON-serialized error (a
serialization of `undefined` rendering as the string "undefined" in the
template literal); on the concrete failure
`\x7b _tag: "NotFound", id: "123" \x7d` the message carries the error's
full JSON serialization. -/
theorem C6_box_unwrap_serialized_error (v e : JsValue) :
    Box.unwrap (Box.ok v) = Except.ok v ∧
    Box.unwrap (Box.err e) =
      Except.error (JsThrow.errorMsg
        ("Unwrap called on Err: " ++ (jsonStringify? e).getD "undefined")) ∧
    Box.unwrap (Box.fail "NotFound" [("id", JsValue.vStr "123")]) =
      Except.error (JsThrow.errorMsg
        "Unwrap called on Err: \x7b\"_tag\":\"NotFound\",\"id\":\"123\"\x7d") :=
  ⟨rfl, rfl, rfl⟩

theorem defineErrors_ctor {tags : List String} {tag : String}
    {ctor : List (String × JsValue) → JsValue}
    (h : findProp? (defineErrors tags) tag = some ctor) :
    ctor = fun props => JsValue.vObj (spreadInto [("_tag", JsValue.vStr tag)] props) := by
  induction tags with
  | nil => simp [defineErrors, findProp?] at h
  | cons t rest ih =>
    simp only [defineErrors, List.map_cons, findProp?] at h
    by_cases he : t = tag
    · subst he
      simp at h
      exact h.symm
    · rw [if_neg he] at h
      exact ih (by simpa [defineErrors] using h)

/-- C7: for every computation handed to the async wrapper's
function-wrapping constructor: a normal completion with value v yields
Success(v); a raise/rejection with value e yields Failure(onError e) (the
config form applies the caller's `catch`); and the no-config form captures
the raised value into the "UnknownError" variant whose `cause` field is the
raised value and whose `message` field is the Error's own message when the
cause is an Error instance and String(cause) otherwise. -/
theorem C7_asyncBox_wrap_capture :
    (∀ (v : JsValue) (onError : JsValue → JsValue),
      AsyncBox.fromPromise (PromiseOutcome.resolved v) onError = AsyncBox.ok v) ∧
    (∀ (e : JsValue) (onError : JsValue → JsValue),
      AsyncBox.fromPromise (PromiseOutcome.rejected e) onError =
        AsyncBox.err (onError e)) ∧
    (∀ (v : JsValue) (catchFn : JsValue → JsValue),
      AsyncBox.wrap (WrapArg.configArg ⟨PromiseOutcome.resolved v, catchFn⟩) =
        AsyncBox.ok v) ∧
    (∀ (e : JsValue) (catchFn : JsValue → JsValue),
      AsyncBox.wrap (WrapArg.configArg ⟨PromiseOutcome.rejected e, catchFn⟩) =
        AsyncBox.err (catchFn e)) ∧
    (∀ v : JsValue,
      AsyncBox.wrap (WrapArg.fnArg (PromiseOutcome.resolved v)) = AsyncBox.ok v) ∧
    (∀ e : JsValue,
      AsyncBox.wrap (WrapArg.fnArg (PromiseOutcome.rejected e)) =
        AsyncBox.err (unknownError e)) ∧
    (∀ c : JsValue,
      propAccess (unknownError c) "_tag" = JsValue.vStr "UnknownError" ∧
      propAccess (unknownError c) "cause" = c) ∧
    (∀ m : String,
      propAccess (unknownError (JsValue.vError m)) "message" = JsValue.vStr m) ∧
    (∀ c : JsValue, (∀ m : String, c ≠ JsValue.vError m) →
      propAccess (unknownError c) "message" = JsValue.vStr (jsToString c)) := by
  refine ⟨fun v onError => rfl, fun e onError => rfl, fun v catchFn => rfl,
    fun e catchFn => rfl, fun v => rfl, fun e => rfl,
    fun c => ⟨rfl, rfl⟩, fun m => rfl, fun c hc => ?_⟩
  cases c with
  | vError m => exact absurd rfl (hc m)
  | vUndefined => rfl
  | vNull => rfl
  | vBool b => rfl
  | vNum n => rfl
  | vStr s => rfl
  | vObj fields => rfl

/-- C7 witness: a rejection with the plain string "boom" (not an Error
instance) yields an UnknownError whose message is String("boom"). -/
theorem C7_asyncBox_wrap_capture_witness :
    propAccess (unknownError (JsValue.vStr "boom")) "message" =
      JsValue.vStr (jsToString (JsValue.vStr "boom")) :=
  C7_asyncBox_wrap_capture.2.2.2.2.2.2.2.2 (JsValue.vStr "boom")
    (fun _ h => JsValue.noConfusion h)

/-- C10: for `Box.fail(tag, props)`, `AsyncBox.fail(tag, props)` and every
constructor produced by `defineErrors`, all built as
`\x7b _tag: tag, ...props \x7d`: when `props` (a record, so with distinct
keys) has no key "_tag", the returned variant is exactly the record with
the requested tag as discriminant followed by the given fields; when
`props` contains a "_tag" key with value w, the spread overrides the
stamped discriminant, so the returned variant's `_tag` is w rather than the
requested tag. -/
theorem C10_fail_spread_tag_override (tag : String)
    (props : List (String × JsValue)) (w : JsValue) (tags : List String)
    (ctor : List (String × JsValue) → JsValue)
    (hctor : findProp? (defineErrors tags) tag = some ctor)
    (hnd : (props.map Prod.fst).Nodup) :
    ("_tag" ∉ props.map Prod.fst →
      Box.fail tag props = Box.err (JsValue.vObj (("_tag", JsValue.vStr tag) :: props)) ∧
      AsyncBox.fail tag props =
        AsyncBox.err (JsValue.vObj (("_tag", JsValue.vStr tag) :: props)) ∧
      ctor props = JsValue.vObj (("_tag", JsValue.vStr tag) :: props)) ∧
    (("_tag", w) ∈ props →
      ∃ fields,
        Box.fail tag props = Box.err (JsValue.vObj fields) ∧
        AsyncBox.fail tag props = AsyncBox.err (JsValue.vObj fields) ∧
        ctor props = JsValue.vObj fields ∧
        propAccess (JsValue.vObj fields) "_tag" = w) := by
  have hc := defineErrors_ctor hctor
  subst hc
  constructor
  · intro hnotin
    have hsp : spreadInto [("_tag", JsValue.vStr tag)] props =
        ("_tag", JsValue.vStr tag) :: props := by
      have := spreadInto_disjoint props [("_tag", JsValue.vStr tag)] hnd
        (fun k hk => by
          simp only [List.map_cons, List.map_nil, List.mem_singleton]
          intro he
          exact hnotin (he ▸ hk))
      simpa using this
    exact ⟨by simp [Box.fail, hsp], by simp [AsyncBox.fail, hsp], by simp [hsp]⟩
  · intro hmem
    refine ⟨spreadInto [("_tag", JsValue.vStr tag)] props, rfl, rfl, rfl, ?_⟩
    simp [propAccess, findProp?_spreadInto_mem props _ hnd hmem]

/-- C10 witness: `Box.fail "NotFound" (id: "1")` is exactly the record
tagged "NotFound" with the `id` field, while props containing a `_tag`
field of "Spoof" override the stamped discriminant. -/
theorem C10_fail_spread_tag_override_witness :
    Box.fail "NotFound" [("id", JsValue.vStr "1")] =
      Box.err (JsValue.vObj [("_tag", JsValue.vStr "NotFound"), ("id", JsValue.vStr "1")]) ∧
    ∃ fields,
      Box.fail "T" [("_tag", JsValue.vStr "Spoof")] = Box.err (JsValue.vObj fields) ∧
      propAccess (JsValue.vObj fields) "_tag" = JsValue.vStr "Spoof" := by
  constructor
  · exact ((C10_fail_spread_tag_override "NotFound" [("id", JsValue.vStr "1")]
      JsValue.vNull ["NotFound"]
      (fun props => JsValue.vObj (spreadInto [("_tag", JsValue.vStr "NotFound")] props))
      rfl (by simp)).1 (by simp)).1
  · obtain ⟨fields, h1, h2, h3, h4⟩ :=
      (C10_fail_spread_tag_override "T" [("_tag", JsValue.vStr "Spoof")]
        (JsValue.vStr "Spoof") ["T"]
        (fun props => JsValue.vObj (spreadInto [("_tag", JsValue.vStr "T")] props))
        rfl (by simp)).2 (by simp)
    exact ⟨fields, h1, h4⟩

/-- C8 counterexample: not every chain method returns a new wrapper
instance. Under explicit reference semantics, `Box.flatMap` applied to a
wrapper holding a Failure executes `return this` (box.ts line 286): the
heap is unchanged — no new wrapper is allocated — and the reference
returned is the receiver's own reference 0, not that of a new instance. -/
theorem C8_flatMap_returns_receiver_cex :
    Box.flatMapS [Result.Err (JsValue.vObj [("_tag", JsValue.vStr "Step1Failed")])] 0
      (fun τ v => allocBox τ (Result.Ok v)) =
      ([Result.Err (JsValue.vObj [("_tag", JsValue.vStr "Step1Failed")])], 0) := rfl

/-- C8 (amended): every chain method (map, mapErr, flatMap, catchTag,
catchAll, orElseTag) never mutates the original wrapper — the heap only
grows by allocations, so the original wrapper's underlying Result (and
every previously created wrapper) is unchanged — and calling the same
method twice with the same arguments produces wrappers with structurally
equal contents; map and mapErr always return a freshly allocated wrapper,
but flatMap, catchTag, catchAll and orElseTag return the original wrapper
instance itself (not a new one) on their pass-through paths. Handler
callbacks are assumed to be well-behaved: they only allocate
(`StoreExtends`) and return a wrapper whose contents depend only on their
argument (`g`). -/
theorem C8_box_chain_immutability (σ : Store) (self : BoxRef)
    (hself : self < σ.length)
    (f : JsValue → JsValue) (fn : Store → JsValue → Store × BoxRef)
    (g : JsValue → JsResult)
    (hext : ∀ τ v, StoreExtends τ (fn τ v).1)
    (hdet : ∀ τ v, derefBox (fn τ v).1 (fn τ v).2 = g v)
    (tag : String) (fallback : JsValue) :
    (StoreExtends σ (Box.mapS σ self f).1 ∧
     StoreExtends σ (Box.mapErrS σ self f).1 ∧
     StoreExtends σ (Box.flatMapS σ self fn).1 ∧
     StoreExtends σ (Box.catchTagS σ self tag fn).1 ∧
     StoreExtends σ (Box.catchAllS σ self fn).1 ∧
     StoreExtends σ (Box.orElseTagS σ self tag fallback).1) ∧
    (derefBox (Box.mapS σ self f).1 self = derefBox σ self ∧
     derefBox (Box.mapErrS σ self f).1 self = derefBox σ self ∧
     derefBox (Box.flatMapS σ self fn).1 self = derefBox σ self ∧
     derefBox (Box.catchTagS σ self tag fn).1 self = derefBox σ self ∧
     derefBox (Box.catchAllS σ self fn).1 self = derefBox σ self ∧
     derefBox (Box.orElseTagS σ self tag fallback).1 self = derefBox σ self) ∧
    (derefBox (Box.mapS (Box.mapS σ self f).1 self f).1
        (Box.mapS (Box.mapS σ self f).1 self f).2 =
      derefBox (Box.mapS σ self f).1 (Box.mapS σ self f).2 ∧
     derefBox (Box.mapErrS (Box.mapErrS σ self f).1 self f).1
        (Box.mapErrS (Box.mapErrS σ self f).1 self f).2 =
      derefBox (Box.mapErrS σ self f).1 (Box.mapErrS σ self f).2 ∧
     derefBox (Box.flatMapS (Box.flatMapS σ self fn).1 self fn).1
        (Box.flatMapS (Box.flatMapS σ self fn).1 self fn).2 =
      derefBox (Box.flatMapS σ self fn).1 (Box.flatMapS σ self fn).2 ∧
     derefBox (Box.catchTagS (Box.catchTagS σ self tag fn).1 self tag fn).1
        (Box.catchTagS (Box.catchTagS σ self tag fn).1 self tag fn).2 =
      derefBox (Box.catchTagS σ self tag fn).1 (Box.catchTagS σ self tag fn).2 ∧
     derefBox (Box.catchAllS (Box.catchAllS σ self fn).1 self fn).1
        (Box.catchAllS (Box.catchAllS σ self fn).1 self fn).2 =
      derefBox (Box.catchAllS σ self fn).1 (Box.catchAllS σ self fn).2 ∧
     derefBox (Box.orElseTagS (Box.orElseTagS σ self tag fallback).1 self tag fallback).1
        (Box.orElseTagS (Box.orElseTagS σ self tag fallback).1 self tag fallback).2 =
      derefBox (Box.orElseTagS σ self tag fallback).1
        (Box.orElseTagS σ self tag fallback).2) ∧
    ((Box.mapS σ self f).2 ≠ self ∧
     (Box.mapErrS σ self f).2 ≠ self ∧
     (isErr (derefBox σ self) = true → Box.flatMapS σ self fn = (σ, self)) ∧
     ((∀ error, derefBox σ self = Result.Err error →
        tagStrEq (propAccess error "_tag") tag = false) →
      Box.catchTagS σ self tag fn = (σ, self)) ∧
     (isOk (derefBox σ self) = true → Box.catchAllS σ self fn = (σ, self)) ∧
     ((∀ error, derefBox σ self = Result.Err error →
        tagStrEq (propAccess error "_tag") tag = false) →
      Box.orElseTagS σ self tag fallback = (σ, self))) := by
  have hmap := mapS_extends σ self f
  have hmaperr := mapErrS_extends σ self f
  have hflat := flatMapS_extends σ self fn hext
  have hcatch := catchTagS_extends σ self tag fn hext
  have hcatchall := catchAllS_extends σ self fn hext
  have horelse := orElseTagS_extends σ self tag fallback
  refine ⟨⟨hmap, hmaperr, hflat, hcatch, hcatchall, horelse⟩,
    ⟨derefBox_preserve hmap hself, derefBox_preserve hmaperr hself,
     derefBox_preserve hflat hself, derefBox_preserve hcatch hself,
     derefBox_preserve hcatchall hself, derefBox_preserve horelse hself⟩,
    ⟨?_, ?_, ?_, ?_, ?_, ?_⟩, ⟨?_, ?_, ?_, ?_, ?_, ?_⟩⟩
  · rw [mapS_content ((Box.mapS σ self f).1) self f,
      derefBox_preserve hmap hself, mapS_content σ self f]
  · rw [mapErrS_content ((Box.mapErrS σ self f).1) self f,
      derefBox_preserve hmaperr hself, mapErrS_content σ self f]
  · rw [flatMapS_content ((Box.flatMapS σ self fn).1) self fn g hdet,
      derefBox_preserve hflat hself, flatMapS_content σ self fn g hdet]
  · rw [catchTagS_content ((Box.catchTagS σ self tag fn).1) self tag fn g hdet,
      derefBox_preserve hcatch hself, catchTagS_content σ self tag fn g hdet]
  · rw [catchAllS_content ((Box.catchAllS σ self fn).1) self fn g hdet,
      derefBox_preserve hcatchall hself, catchAllS_content σ self fn g hdet]
  · rw [orElseTagS_content ((Box.orElseTagS σ self tag fallback).1) self tag fallback,
      derefBox_preserve horelse hself, orElseTagS_content σ self tag fallback]
  · rw [mapS_fresh σ self f]
    exact (Nat.ne_of_lt hself).symm
  · rw [mapErrS_fresh σ self f]
    exact (Nat.ne_of_lt hself).symm
  · intro hfail
    unfold Box.flatMapS
    cases hd : derefBox σ self with
    | Ok value => rw [hd] at hfail; simp [isErr] at hfail
    | Err error => rfl
  · intro hno
    unfold Box.catchTagS
    cases hd : derefBox σ self with
    | Ok value => rfl
    | Err error => simp [hno error hd]
  · intro hsucc
    unfold Box.catchAllS
    cases hd : derefBox σ self with
    | Ok value => rfl
    | Err error => rw [hd] at hsucc; simp [isOk] at hsucc
  · intro hno
    unfold Box.orElseTagS
    cases hd : derefBox σ self with
    | Ok value => rfl
    | Err error => simp [hno error hd]

/-- C8 witness: on a one-wrapper heap holding a Success, `Box.map` returns
a reference distinct from the receiver's, with the receiver's contents
unchanged. -/
theorem C8_box_chain_immutability_witness :
    (Box.mapS [Result.Ok (JsValue.vNum 1)] 0 (fun v => v)).2 ≠ 0 ∧
    derefBox (Box.mapS [Result.Ok (JsValue.vNum 1)] 0 (fun v => v)).1 0 =
      derefBox [Result.Ok (JsValue.vNum 1)] 0 := by
  have h := C8_box_chain_immutability [Result.Ok (JsValue.vNum 1)] 0 (by decide)
    (fun v => v) (fun τ v => allocBox τ (Result.Ok v)) (fun v => Result.Ok v)
    (fun τ v => storeExtends_alloc τ (Result.Ok v))
    (fun τ v => derefBox_alloc τ (Result.Ok v))
    "T" (JsValue.vNum 2)
  exact ⟨h.2.2.2.1, h.2.1.1⟩
